import Mathlib

/-!
Verification of the Llama2 multi-head attention KV-cache protocol and the
decoder layer dataflow, shallowly embedded from src/MaxText/layers/llama2.py.
Rational numbers stand for the float tensor entries; tensors are modelled as
total functions from natural-number indices, read only inside their bounds.
-/

namespace MaxText

/-- A single-position key or value tensor, indexed by (batch, head, head_dim);
this is the step tensor fed to the cache during one decode call. -/
abbrev Tok : Type := ℕ → ℕ → ℕ → ℚ

/-- The all-zero single-position tensor, used as a list-lookup default. -/
def zeroTok : Tok := fun _ _ _ => 0

/-- Four-dimensional tensor shape. -/
abbrev Shape4 : Type := ℕ × ℕ × ℕ × ℕ

/-- KV cache state: cached_key and cached_value in the time-last layout
(batch, num_heads, head_dim, length) chosen by swap_dims, plus the running
cache_index and the allocated shape metadata (llama2.py lines 158 to 167). -/
structure CacheState where
  batch : ℕ
  num_heads : ℕ
  head_dim : ℕ
  max_length : ℕ
  cached_key : ℕ → ℕ → ℕ → ℕ → ℚ
  cached_value : ℕ → ℕ → ℕ → ℕ → ℚ
  cache_index : ℕ

/-- Cache allocation (llama2.py lines 160 to 165): zero-filled cached_key and
cached_value in the swapped (batch, num_heads, head_dim, max_length) layout,
with cache_index initialized to zero. -/
def allocate (batch num_heads head_dim max_length : ℕ) : CacheState :=
  { batch := batch, num_heads := num_heads, head_dim := head_dim,
    max_length := max_length,
    cached_key := fun _ _ _ _ => 0,
    cached_value := fun _ _ _ _ => 0,
    cache_index := 0 }

/-- The one-hot vector of the current index over time positions l, as built by
jax.nn.one_hot at llama2.py line 178: value 1 exactly at the position equal to
the index. An out-of-range index matches no in-range position, giving the
all-zero vector. -/
def one_hot (index l : ℕ) : ℚ := if l = index then 1 else 0

/-- One decode-step cache update (llama2.py lines 176 to 193): additive
scatter of the single-position key and value against the one-hot of the
current index, then increment of cache_index by one. -/
def step_update (st : CacheState) (key_step value_step : Tok) : CacheState :=
  { st with
    cached_key := fun b h d l =>
      st.cached_key b h d l + key_step b h d * one_hot st.cache_index l,
    cached_value := fun b h d l =>
      st.cached_value b h d l + value_step b h d * one_hot st.cache_index l,
    cache_index := st.cache_index + 1 }

/-- The decode branch against an already-allocated cache (llama2.py lines 166
to 196): the query shape must equal (batch, 1, num_heads, head_dim) read off
the cached_key shape, otherwise a fatal shape error is raised; on success the
scatter update runs. -/
def decode_branch (st : CacheState) (query_shape : Shape4)
    (key_step value_step : Tok) : Except String CacheState :=
  if (st.batch, 1, st.num_heads, st.head_dim) = query_shape then
    Except.ok (step_update st key_step value_step)
  else
    Except.error "Autoregressive cache shape error"

/-- Iterated decode-step updates from a given cache state. -/
def run_steps (steps : List (Tok × Tok)) (st : CacheState) : CacheState :=
  steps.foldl (fun acc s => step_update acc s.1 s.2) st

/-- A whole decoding session: allocate a fresh cache, then run the given
sequence of single-token decode steps. -/
def decode_run (batch num_heads head_dim max_length : ℕ)
    (steps : List (Tok × Tok)) : CacheState :=
  run_steps steps (allocate batch num_heads head_dim max_length)

lemma run_steps_nil (st : CacheState) : run_steps [] st = st := rfl

lemma run_steps_cons (s : Tok × Tok) (steps : List (Tok × Tok))
    (st : CacheState) :
    run_steps (s :: steps) st = run_steps steps (step_update st s.1 s.2) := rfl

lemma step_update_cache_index (st : CacheState) (k v : Tok) :
    (step_update st k v).cache_index = st.cache_index + 1 := rfl

lemma run_steps_cache_index (steps : List (Tok × Tok)) :
    ∀ st : CacheState,
      (run_steps steps st).cache_index = st.cache_index + steps.length := by
  induction steps with
  | nil => intro st; simp [run_steps_nil]
  | cons s ss ih =>
    intro st
    rw [run_steps_cons, ih, step_update_cache_index]
    simp [List.length_cons]
    omega

lemma run_steps_shape (steps : List (Tok × Tok)) :
    ∀ st : CacheState,
      (run_steps steps st).batch = st.batch ∧
      (run_steps steps st).num_heads = st.num_heads ∧
      (run_steps steps st).head_dim = st.head_dim ∧
      (run_steps steps st).max_length = st.max_length := by
  induction steps with
  | nil => intro st; exact ⟨rfl, rfl, rfl, rfl⟩
  | cons s ss ih =>
    intro st
    rw [run_steps_cons]
    exact ih (step_update st s.1 s.2)

lemma run_steps_below (steps : List (Tok × Tok)) :
    ∀ (st : CacheState) (b h d l : ℕ), l < st.cache_index →
      (run_steps steps st).cached_key b h d l = st.cached_key b h d l ∧
      (run_steps steps st).cached_value b h d l = st.cached_value b h d l := by
  induction steps with
  | nil => intro st b h d l _; exact ⟨rfl, rfl⟩
  | cons s ss ih =>
    intro st b h d l hl
    have hne : l ≠ st.cache_index := Nat.ne_of_lt hl
    have hl' : l < (step_update st s.1 s.2).cache_index := by
      rw [step_update_cache_index]; omega
    rw [run_steps_cons]
    obtain ⟨hk, hv⟩ := ih (step_update st s.1 s.2) b h d l hl'
    rw [hk, hv]
    constructor
    · simp [step_update, one_hot, hne]
    · simp [step_update, one_hot, hne]

lemma run_steps_at (steps : List (Tok × Tok)) :
    ∀ (st : CacheState) (j b h d : ℕ), j < steps.length →
      (run_steps steps st).cached_key b h d (st.cache_index + j) =
        st.cached_key b h d (st.cache_index + j) +
          (steps.getD j (zeroTok, zeroTok)).1 b h d ∧
      (run_steps steps st).cached_value b h d (st.cache_index + j) =
        st.cached_value b h d (st.cache_index + j) +
          (steps.getD j (zeroTok, zeroTok)).2 b h d := by
  induction steps with
  | nil => intro st j b h d hj; simp at hj
  | cons s ss ih =>
    intro st j b h d hj
    rw [run_steps_cons]
    cases j with
    | zero =>
      have hlt : st.cache_index < (step_update st s.1 s.2).cache_index := by
        rw [step_update_cache_index]; omega
      obtain ⟨hk, hv⟩ :=
        run_steps_below ss (step_update st s.1 s.2) b h d st.cache_index hlt
      rw [Nat.add_zero, hk, hv]
      constructor
      · simp [step_update, one_hot]
      · simp [step_update, one_hot]
    | succ j =>
      have hj' : j < ss.length := by simpa [List.length_cons] using hj
      have harith :
          st.cache_index + (j + 1) =
            (step_update st s.1 s.2).cache_index + j := by
        rw [step_update_cache_index]; omega
      have hne : st.cache_index + (j + 1) ≠ st.cache_index := by omega
      obtain ⟨hk, hv⟩ := ih (step_update st s.1 s.2) j b h d hj'
      rw [harith, hk, hv]
      constructor
      · simp [step_update, one_hot, List.getD]
        exact fun hc => absurd hc (by omega)
      · simp [step_update, one_hot, List.getD]
        exact fun hc => absurd hc (by omega)

/-- C1: after L sequential single-token decode calls on a freshly allocated
cache of capacity L, cache_index equals L and cached_key, read back in the
natural (batch, length, heads, head_dim) layout, equals the concatenation, in
call order, of the per-step key tensors. -/
theorem c1_sequential_decode (batch num_heads head_dim L : ℕ)
    (steps : List (Tok × Tok)) (b h d l : ℕ)
    (hL : steps.length = L) (hl : l < L) :
    (decode_run batch num_heads head_dim L steps).cache_index = L ∧
    (decode_run batch num_heads head_dim L steps).cached_key b h d l =
      (steps.getD l (zeroTok, zeroTok)).1 b h d := by
  constructor
  · rw [decode_run, run_steps_cache_index]
    simp [allocate, hL]
  · have h0 : (allocate batch num_heads head_dim L).cache_index = 0 := rfl
    have hl' : l < steps.length := by omega
    obtain ⟨hk, _⟩ :=
      run_steps_at steps (allocate batch num_heads head_dim L) l b h d hl'
    rw [h0, Nat.zero_add] at hk
    rw [decode_run, hk]
    simp [allocate]

/-- Concrete four-step decode scenario from the specification: keys
[1,0], [0,1], [1,1], [0,0] at batch 1, heads 1, head_dim 2, max_length 4. -/
def ex_steps : List (Tok × Tok) :=
  [(fun _ _ d => if d = 0 then 1 else 0, zeroTok),
   (fun _ _ d => if d = 0 then 0 else 1, zeroTok),
   (fun _ _ _ => 1, zeroTok),
   (fun _ _ _ => 0, zeroTok)]

/-- C1 witness: the concrete four-step scenario, instantiated at time
position 2 and head dimension 1, where the third step key has entry 1. -/
theorem c1_sequential_decode_witness :
    ex_steps.length = 4 ∧ 2 < 4 ∧
    ((decode_run 1 1 2 4 ex_steps).cache_index = 4 ∧
      (decode_run 1 1 2 4 ex_steps).cached_key 0 0 1 2 =
        (ex_steps.getD 2 (zeroTok, zeroTok)).1 0 0 1) ∧
    (ex_steps.getD 2 (zeroTok, zeroTok)).1 0 0 1 = 1 :=
  ⟨rfl, by omega,
    c1_sequential_decode 1 1 2 4 ex_steps 0 0 1 2 rfl (by omega), rfl⟩

/-- C3 counterexample: on a capacity-one cache, a single decode step leaves
cache_index equal to max_length, so cache_index is not strictly below
max_length at all times. -/
theorem c3_counterexample :
    ¬ ((decode_run 1 1 1 1 [(zeroTok, zeroTok)]).cache_index <
        (decode_run 1 1 1 1 [(zeroTok, zeroTok)]).max_length) := by
  have h1 : (decode_run 1 1 1 1 [(zeroTok, zeroTok)]).cache_index = 1 := rfl
  have h2 : (decode_run 1 1 1 1 [(zeroTok, zeroTok)]).max_length = 1 := rfl
  omega

/-- C3 amended: the cache is allocated zero-filled with cache_index zero, and
after k sequential decode steps cache_index equals k, hence stays at most
max_length whenever at most max_length steps are issued; strict inequality
holds before the final step but not after it. -/
theorem c3_invariant_amended (batch num_heads head_dim L : ℕ)
    (steps : List (Tok × Tok)) (b h d l : ℕ)
    (hs : steps.length ≤ L) :
    (allocate batch num_heads head_dim L).cache_index = 0 ∧
    (allocate batch num_heads head_dim L).cached_key b h d l = 0 ∧
    (allocate batch num_heads head_dim L).cached_value b h d l = 0 ∧
    (decode_run batch num_heads head_dim L steps).cache_index = steps.length ∧
    (decode_run batch num_heads head_dim L steps).cache_index ≤ L := by
  refine ⟨rfl, rfl, rfl, ?_, ?_⟩
  · rw [decode_run, run_steps_cache_index]; simp [allocate]
  · rw [decode_run, run_steps_cache_index]
    simp [allocate]
    omega

/-- C3 amended witness: one decode step against a capacity-two cache. -/
theorem c3_invariant_amended_witness :
    [(zeroTok, zeroTok)].length ≤ 2 ∧
    ((allocate 1 1 1 2).cache_index = 0 ∧
      (allocate 1 1 1 2).cached_key 0 0 0 0 = 0 ∧
      (allocate 1 1 1 2).cached_value 0 0 0 0 = 0 ∧
      (decode_run 1 1 1 2 [(zeroTok, zeroTok)]).cache_index =
        [(zeroTok, zeroTok)].length ∧
      (decode_run 1 1 1 2 [(zeroTok, zeroTok)]).cache_index ≤ 2) :=
  ⟨by decide, c3_invariant_amended 1 1 1 2 [(zeroTok, zeroTok)] 0 0 0 0 (by decide)⟩

/-- C4: against an already-allocated cache, the decode branch raises a fatal
shape error exactly when the query shape differs from
(batch, 1, num_heads, head_dim) read off the cache, and a conforming query
runs the scatter update without error. -/
theorem c4_shape_check (st : CacheState) (query_shape : Shape4)
    (key_step value_step : Tok) :
    (decode_branch st query_shape key_step value_step =
        Except.error "Autoregressive cache shape error" ↔
      query_shape ≠ (st.batch, 1, st.num_heads, st.head_dim)) ∧
    decode_branch st (st.batch, 1, st.num_heads, st.head_dim)
        key_step value_step =
      Except.ok (step_update st key_step value_step) := by
  refine ⟨?_, by simp [decode_branch]⟩
  by_cases hq : (st.batch, 1, st.num_heads, st.head_dim) = query_shape
  · rw [decode_branch, if_pos hq]
    constructor
    · intro h; exact absurd h (by simp)
    · intro hne; exact (hne hq.symm).elim
  · rw [decode_branch, if_neg hq]
    constructor
    · intro _; exact fun hc => hq hc.symm
    · intro _; rfl

/-- C10: a decode step issued when cache_index is at least max_length finds
the one-hot vector all zero on every in-range position, so cached_key and
cached_value are unchanged there, while cache_index is still incremented and
no error is raised for a conforming query. -/
theorem c10_out_of_range_step (st : CacheState) (key_step value_step : Tok)
    (b h d l : ℕ) (hidx : st.max_length ≤ st.cache_index)
    (hl : l < st.max_length) :
    one_hot st.cache_index l = 0 ∧
    (step_update st key_step value_step).cached_key b h d l =
      st.cached_key b h d l ∧
    (step_update st key_step value_step).cached_value b h d l =
      st.cached_value b h d l ∧
    (step_update st key_step value_step).cache_index = st.cache_index + 1 ∧
    decode_branch st (st.batch, 1, st.num_heads, st.head_dim)
        key_step value_step =
      Except.ok (step_update st key_step value_step) := by
  have hne : l ≠ st.cache_index := by omega
  refine ⟨?_, ?_, ?_, rfl, ?_⟩
  · simp [one_hot, hne]
  · simp [step_update, one_hot, hne]
  · simp [step_update, one_hot, hne]
  · simp [decode_branch]

/-- C10 witness: a full capacity-one cache (one step already taken) receives
one more decode step; the stored entry at position zero is untouched and the
index advances to two. -/
theorem c10_out_of_range_step_witness :
    (decode_run 1 1 1 1 [(zeroTok, zeroTok)]).max_length ≤
      (decode_run 1 1 1 1 [(zeroTok, zeroTok)]).cache_index ∧
    0 < (decode_run 1 1 1 1 [(zeroTok, zeroTok)]).max_length ∧
    (one_hot (decode_run 1 1 1 1 [(zeroTok, zeroTok)]).cache_index 0 = 0 ∧
      (step_update (decode_run 1 1 1 1 [(zeroTok, zeroTok)]) zeroTok
          zeroTok).cached_key 0 0 0 0 =
        (decode_run 1 1 1 1 [(zeroTok, zeroTok)]).cached_key 0 0 0 0 ∧
      (step_update (decode_run 1 1 1 1 [(zeroTok, zeroTok)]) zeroTok
          zeroTok).cached_value 0 0 0 0 =
        (decode_run 1 1 1 1 [(zeroTok, zeroTok)]).cached_value 0 0 0 0 ∧
      (step_update (decode_run 1 1 1 1 [(zeroTok, zeroTok)]) zeroTok
          zeroTok).cache_index =
        (decode_run 1 1 1 1 [(zeroTok, zeroTok)]).cache_index + 1 ∧
      decode_branch (decode_run 1 1 1 1 [(zeroTok, zeroTok)])
          ((decode_run 1 1 1 1 [(zeroTok, zeroTok)]).batch, 1,
            (decode_run 1 1 1 1 [(zeroTok, zeroTok)]).num_heads,
            (decode_run 1 1 1 1 [(zeroTok, zeroTok)]).head_dim)
          zeroTok zeroTok =
        Except.ok (step_update (decode_run 1 1 1 1 [(zeroTok, zeroTok)])
          zeroTok zeroTok)) :=
  ⟨by decide, by decide,
    c10_out_of_range_step (decode_run 1 1 1 1 [(zeroTok, zeroTok)])
      zeroTok zeroTok 0 0 0 0 (by decide) (by decide)⟩

/-- Conversion of a boolean attention mask position into an additive bias
(llama2.py lines 220 to 226, lax.select): an attendable position maps to 0,
a forbidden position to the large negative sentinel -1e10. -/
def mask_bias (m : ℕ → Bool) (j : ℕ) : ℚ :=
  if m j then 0 else -10000000000

/-- Modelled from the spec: models.combine_masks is not under src; masks
combine so that a position is attendable only when every given mask allows
it, hence pointwise conjunction. -/
def combine_masks (m1 m2 : ℕ → Bool) : ℕ → Bool := fun j => m1 j && m2 j

/-- The causal decode mask built at llama2.py lines 198 to 209: the single
query row may attend exactly to the key positions at most the current index,
via arange(length) <= cur_index, broadcast over batch and heads. -/
def causal_decode_mask (cur : ℕ) : ℕ → Bool := fun j => decide (j ≤ cur)

/-- Modelled from the spec: models.dynamic_vector_slice_in_dim is not under
src; during decode it slices exactly one query row out of the full bias at
the runtime cache index, equivalent to bias[..., cur:cur+1, :]
(llama2.py lines 211 to 218). -/
def dynamic_vector_slice_in_dim (bias : ℕ → ℕ → ℚ) (cur : ℕ) : ℕ → ℕ → ℚ :=
  fun q k => bias (cur + q) k

/-- Modelled from the spec: models.combine_biases is not under src; biases
combine additively (llama2.py lines 230 to 232). -/
def combine_biases (a b : ℕ → ℕ → ℚ) : ℕ → ℕ → ℚ := fun q k => a q k + b q k

/-- The attention bias composed during a decode step with an external bias
supplied (llama2.py lines 198 to 232): the user mask conjoined with the
causal decode mask, converted to an additive bias, combined with the single
dynamically sliced row of the external bias. -/
def decode_attention_bias (user_mask : ℕ → Bool) (bias : ℕ → ℕ → ℚ)
    (cur : ℕ) : ℕ → ℕ → ℚ :=
  combine_biases
    (fun _ k => mask_bias (combine_masks user_mask (causal_decode_mask cur)) k)
    (dynamic_vector_slice_in_dim bias cur)

/-- C6: during a decode step with an external bias, the bias row combined
into the composed attention bias is exactly the row of the supplied bias at
the runtime index cache_index, and two external biases agreeing on that row
compose identically, so no other row influences the result. -/
theorem c6_bias_dynamic_slice (user_mask : ℕ → Bool)
    (bias bias2 : ℕ → ℕ → ℚ) (cur k : ℕ)
    (hrow : ∀ kk, bias cur kk = bias2 cur kk) :
    decode_attention_bias user_mask bias cur 0 k =
      mask_bias (combine_masks user_mask (causal_decode_mask cur)) k +
        bias cur k ∧
    decode_attention_bias user_mask bias cur 0 k =
      decode_attention_bias user_mask bias2 cur 0 k := by
  constructor
  · simp [decode_attention_bias, combine_biases, dynamic_vector_slice_in_dim]
  · simp [decode_attention_bias, combine_biases, dynamic_vector_slice_in_dim,
      hrow]

/-- A trivially permissive user mask, for concrete instances. -/
def ex_mask : ℕ → Bool := fun _ => true

/-- A concrete external bias matrix. -/
def ex_bias : ℕ → ℕ → ℚ := fun q k => q + k

/-- A concrete external bias matrix agreeing with ex_bias on row 1 only. -/
def ex_bias2 : ℕ → ℕ → ℚ := fun q k => if q = 1 then q + k else q + k + 5

/-- C6 witness: at cache index 1 and key position 3, the composed bias picks
row 1 of the external bias, and ex_bias2, which differs from ex_bias off
row 1, composes identically. -/
theorem c6_bias_dynamic_slice_witness :
    decode_attention_bias ex_mask ex_bias 1 0 3 =
      mask_bias (combine_masks ex_mask (causal_decode_mask 1)) 3 +
        ex_bias 1 3 ∧
    decode_attention_bias ex_mask ex_bias 1 0 3 =
      decode_attention_bias ex_mask ex_bias2 1 0 3 :=
  c6_bias_dynamic_slice ex_mask ex_bias ex_bias2 1 3
    (by intro kk; simp [ex_bias, ex_bias2])

/-- Modelled from the spec: the Attention Core (models.apply_attention is not
under src) takes softmax over the key axis of the biased logits; over the
reals, the weight at position j is the exponential of logit j divided by the
sum of the exponentials. -/
noncomputable def softmax (n : ℕ) (x : Fin n → ℝ) (j : Fin n) : ℝ :=
  Real.exp (x j) / ∑ i, Real.exp (x i)

/-- The biased logits of a decode step at index cur: content logits plus the
composed mask bias of llama2.py lines 198 to 226, cast to the reals. -/
noncomputable def decode_logits (user_mask : ℕ → Bool) (cur n : ℕ)
    (l : Fin n → ℝ) : Fin n → ℝ :=
  fun k =>
    l k + ((mask_bias (combine_masks user_mask (causal_decode_mask cur)) k : ℚ) : ℝ)

/-- Zero content logits over two key positions, for concrete instances. -/
noncomputable def ex_zero_logits : Fin 2 → ℝ := fun _ => 0

/-- C2 counterexample: at decode step 0 with a permissive user mask and zero
content logits over two key positions, the exact post-softmax weight at the
forbidden key position 1 is strictly positive, not exactly 0: the -1e10
sentinel saturates but does not null the exact softmax. -/
theorem c2_counterexample :
    ¬ (softmax 2 (decode_logits ex_mask 0 2 ex_zero_logits)
        ⟨1, by omega⟩ = 0) := by
  have hpos :
      0 < softmax 2 (decode_logits ex_mask 0 2 ex_zero_logits) ⟨1, by omega⟩ := by
    unfold softmax
    apply div_pos (Real.exp_pos _)
    exact Finset.sum_pos (fun i _ => Real.exp_pos _) Finset.univ_nonempty
  exact ne_of_gt hpos

/-- C2 amended: at decode step cur, the composed bias maps every key position
strictly greater than cur to the -1e10 sentinel, so the post-softmax weight
there is strictly positive in exact arithmetic but bounded by the exponential
of (logit gap minus 1e10), vanishing to 0 only through floating-point
underflow. -/
theorem c2_causal_sentinel_bound (user_mask : ℕ → Bool) (cur n : ℕ)
    (l : Fin n → ℝ) (i j : Fin n) (hi : (i : ℕ) ≤ cur)
    (hmi : user_mask (i : ℕ) = true) (hj : cur < (j : ℕ)) :
    mask_bias (combine_masks user_mask (causal_decode_mask cur)) (j : ℕ) =
      -10000000000 ∧
    0 < softmax n (decode_logits user_mask cur n l) j ∧
    softmax n (decode_logits user_mask cur n l) j ≤
      Real.exp (l j - l i - 10000000000) := by
  have hmaskj :
      combine_masks user_mask (causal_decode_mask cur) (j : ℕ) = false := by
    simp [combine_masks, causal_decode_mask]
    omega
  have hbj :
      mask_bias (combine_masks user_mask (causal_decode_mask cur)) (j : ℕ) =
        -10000000000 := by
    simp [mask_bias, hmaskj]
  have hmaski :
      combine_masks user_mask (causal_decode_mask cur) (i : ℕ) = true := by
    simp [combine_masks, causal_decode_mask, hmi]
    omega
  have hbi :
      mask_bias (combine_masks user_mask (causal_decode_mask cur)) (i : ℕ) =
        0 := by
    simp [mask_bias, hmaski]
  have hxj :
      decode_logits user_mask cur n l j = l j - 10000000000 := by
    rw [decode_logits, hbj]
    push_cast
    ring
  have hxi : decode_logits user_mask cur n l i = l i := by
    rw [decode_logits, hbi]
    push_cast
    ring
  refine ⟨hbj, ?_, ?_⟩
  · unfold softmax
    apply div_pos (Real.exp_pos _)
    apply Finset.sum_pos (fun k _ => Real.exp_pos _)
    exact ⟨i, Finset.mem_univ i⟩
  · have hsum :
        Real.exp (decode_logits user_mask cur n l i) ≤
          ∑ k, Real.exp (decode_logits user_mask cur n l k) :=
      Finset.single_le_sum (fun k _ => le_of_lt (Real.exp_pos _))
        (Finset.mem_univ i)
    calc softmax n (decode_logits user_mask cur n l) j
        = Real.exp (decode_logits user_mask cur n l j) /
            ∑ k, Real.exp (decode_logits user_mask cur n l k) := rfl
      _ ≤ Real.exp (decode_logits user_mask cur n l j) /
            Real.exp (decode_logits user_mask cur n l i) :=
          div_le_div_of_nonneg_left (le_of_lt (Real.exp_pos _))
            (Real.exp_pos _) hsum
      _ = Real.exp (decode_logits user_mask cur n l j -
            decode_logits user_mask cur n l i) := (Real.exp_sub _ _).symm
      _ = Real.exp (l j - l i - 10000000000) := by
          rw [hxj, hxi]
          ring_nf

/-- Key position 0 over two positions. -/
def ex_i2 : Fin 2 := ⟨0, by omega⟩

/-- Key position 1 over two positions. -/
def ex_j2 : Fin 2 := ⟨1, by omega⟩

/-- C2 amended witness: at decode step 0 with a permissive user mask and zero
content logits, position 1 carries the sentinel bias and its exact softmax
weight lies in (0, exp(-1e10)]. -/
theorem c2_causal_sentinel_bound_witness :
    mask_bias (combine_masks ex_mask (causal_decode_mask 0)) (ex_j2 : ℕ) =
      -10000000000 ∧
    0 < softmax 2 (decode_logits ex_mask 0 2 ex_zero_logits) ex_j2 ∧
    softmax 2 (decode_logits ex_mask 0 2 ex_zero_logits) ex_j2 ≤
      Real.exp (ex_zero_logits ex_j2 - ex_zero_logits ex_i2 - 10000000000) :=
  c2_causal_sentinel_bound ex_mask 0 2 ex_zero_logits ex_i2 ex_j2
    (by decide) rfl (by decide)

/-- Modelled from the spec: the Projection Primitive (models.DenseGeneral is
not under src) is a linear map of the input against a kernel. -/
noncomputable def dense_proj (d e : ℕ) (kernel : Fin d × Fin e → ℝ)
    (x : Fin e → ℝ) : Fin d → ℝ :=
  fun i => ∑ jj, kernel (i, jj) * x jj

/-- The query kernel initializer (llama2.py lines 109 to 119): the supplied
kernel initializer divided elementwise by depth_scaling, the square root of
head_dim. -/
noncomputable def query_init {α : Type} (head_dim : ℕ)
    (kernel_init : α → ℝ) : α → ℝ :=
  fun a => kernel_init a / Real.sqrt head_dim

/-- The initializer assignment of the source (llama2.py lines 119 to 121):
the query projection gets the scaled initializer, the key and value
projections get the supplied initializer unscaled. -/
noncomputable def projection_inits {α : Type} (kernel_init : α → ℝ)
    (head_dim : ℕ) : (α → ℝ) × (α → ℝ) × (α → ℝ) :=
  (query_init head_dim kernel_init, kernel_init, kernel_init)

/-- Modelled from the spec: the Attention Core logits (models.apply_attention
is not under src) are the plain dot product of query and key with no
rescaling by one over the square root of head_dim at call time. -/
noncomputable def attn_logits (d : ℕ) (q k : Fin d → ℝ) : ℝ :=
  ∑ i, q i * k i

/-- C7: key and value projections receive the unscaled initializer, the query
projection receives the initializer divided by the square root of head_dim,
and the unrescaled call-time logits computed from such weights equal the
conventional logits divided by the square root of head_dim. -/
theorem c7_query_init_scaling (d e : ℕ) (kernel_init kv_init : Fin d × Fin e → ℝ)
    (x y : Fin e → ℝ) :
    (projection_inits kernel_init d).2.1 = kernel_init ∧
    (projection_inits kernel_init d).2.2 = kernel_init ∧
    (projection_inits kernel_init d).1 = query_init d kernel_init ∧
    attn_logits d (dense_proj d e (projection_inits kernel_init d).1 x)
        (dense_proj d e kv_init y) =
      attn_logits d (dense_proj d e kernel_init x) (dense_proj d e kv_init y) /
        Real.sqrt d := by
  refine ⟨rfl, rfl, rfl, ?_⟩
  have hq : ∀ i, dense_proj d e (projection_inits kernel_init d).1 x i =
      dense_proj d e kernel_init x i / Real.sqrt d := by
    intro i
    simp only [dense_proj, projection_inits, query_init]
    rw [Finset.sum_div]
    apply Finset.sum_congr rfl
    intro jj _
    rw [div_mul_eq_mul_div]
  calc attn_logits d (dense_proj d e (projection_inits kernel_init d).1 x)
        (dense_proj d e kv_init y)
      = ∑ i, (dense_proj d e kernel_init x i / Real.sqrt d) *
          dense_proj d e kv_init y i := by
        apply Finset.sum_congr rfl
        intro i _
        rw [hq i]
    _ = (∑ i, dense_proj d e kernel_init x i * dense_proj d e kv_init y i) /
          Real.sqrt d := by
        rw [Finset.sum_div]
        apply Finset.sum_congr rfl
        intro i _
        rw [div_mul_eq_mul_div]
    _ = attn_logits d (dense_proj d e kernel_init x)
          (dense_proj d e kv_init y) / Real.sqrt d := rfl

/-- External collaborators of the decoder layer (spec section 2), abstracted
as functions on activations: the pre-attention RMSNorm, the self-attention
block, the post-attention LayerNorm, the MLP block and dropout. The partition
constraint primitive is the identity on values. -/
structure DecoderComponents where
  pre_norm : (ℕ → ℚ) → (ℕ → ℚ)
  attn : (ℕ → ℚ) → (ℕ → ℚ)
  post_norm : (ℕ → ℚ) → (ℕ → ℚ)
  mlp : (ℕ → ℚ) → (ℕ → ℚ)
  drop : (ℕ → ℚ) → (ℕ → ℚ)

/-- The tensor handed to the MLP block by DecoderLayer (llama2.py lines 357
to 409): after the residual add (line 392) and the post-attention LayerNorm
(lines 396 to 398), line 399 rebinds hidden_states to the partition
constraint applied to lnx, the pre-attention normalized tensor, and that is
what the MLP receives at line 409. -/
def decoder_layer_mlp_input (c : DecoderComponents) (inputs : ℕ → ℚ) :
    ℕ → ℚ :=
  let lnx := c.pre_norm inputs
  let attention_lnx := c.attn lnx
  let hidden_states := fun n => inputs n + attention_lnx n
  let _post_normed := c.post_norm hidden_states
  lnx

/-- The decoder layer output (llama2.py lines 392 to 418): the MLP output
plus the post-attention residual, then dropout. -/
def decoder_layer_output (c : DecoderComponents) (inputs : ℕ → ℚ) : ℕ → ℚ :=
  let lnx := c.pre_norm inputs
  let attention_lnx := c.attn lnx
  let residual := fun n => inputs n + attention_lnx n
  let mlp_lnx := c.mlp (decoder_layer_mlp_input c inputs)
  c.drop (fun n => mlp_lnx n + residual n)

/-- Concrete decoder components separating the dataflow paths. -/
def ex_components : DecoderComponents :=
  { pre_norm := fun x n => x n + 1,
    attn := fun x n => 2 * x n,
    post_norm := fun x n => x n + 10,
    mlp := fun x => x,
    drop := fun x => x }

/-- The all-zero decoder layer input. -/
def ex_inputs : ℕ → ℚ := fun _ => 0

/-- C5: the code feeds the MLP the pre-attention normalized tensor lnx, not
the post-attention normalization of the attention-plus-residual tensor; at
the concrete components the two differ, exhibiting the defect the spec flags
at llama2.py line 399. -/
theorem c5_mlp_input_defect :
    (∀ (c : DecoderComponents) (inputs : ℕ → ℚ),
      decoder_layer_mlp_input c inputs = c.pre_norm inputs) ∧
    decoder_layer_mlp_input ex_components ex_inputs ≠
      ex_components.post_norm
        (fun n => ex_inputs n +
          ex_components.attn (ex_components.pre_norm ex_inputs) n) := by
  constructor
  · intro c inputs
    rfl
  · intro hcontra
    have h0 := congrFun hcontra 0
    simp [decoder_layer_mlp_input, ex_components, ex_inputs] at h0
    norm_num at h0

/-- The result of one attention call at the granularity the claims need: the
output tensor shape, the cache state after the call, and the rng consumed by
dropout if any. -/
structure CallResult where
  output_shape : ℕ × ℕ × ℕ
  cache : Option CacheState
  dropout_rng : Option ℕ

/-- The dropout rng draw (llama2.py lines 234 to 236): a key is derived from
the supplied keyed source exactly when deterministic is false and the dropout
rate is positive; otherwise no rng is consumed. -/
def dropout_rng_select (deterministic : Bool) (dropout_rate : ℚ)
    (make_rng : ℕ → ℕ) (rng_key : ℕ) : Option ℕ :=
  if deterministic = false ∧ 0 < dropout_rate then some (make_rng rng_key)
  else none

/-- The cache effect of one attention call (llama2.py lines 150 to 196): only
under decode is the cache touched; an absent cache is allocated zero-filled
from the swapped key shape, a present one goes through the checked scatter
update; with decode false the cache passes through untouched. -/
def attention_call_cache (num_heads head_dim : ℕ) (q_shape : ℕ × ℕ × ℕ)
    (key_step value_step : Tok) (st : Option CacheState) (decode : Bool) :
    Except String (Option CacheState) :=
  if decode then
    match st with
    | none =>
      Except.ok (some (allocate q_shape.1 num_heads head_dim q_shape.2.1))
    | some c =>
      Except.map some
        (decode_branch c (q_shape.1, q_shape.2.1, num_heads, head_dim)
          key_step value_step)
  else Except.ok st

/-- The attention call (llama2.py lines 59 to 255) at the level the claims
need: the cache effect of the decode flag, the output shape, and the dropout
rng selection. The output keeps the query input shape because the final
projection maps back to inputs_q.shape[-1] (modelled from the spec:
models.DenseGeneral is not under src); in self-attention the key and value
inputs share the query input shape. -/
def attention_call (num_heads head_dim : ℕ) (make_rng : ℕ → ℕ)
    (q_shape : ℕ × ℕ × ℕ) (key_step value_step : Tok)
    (st : Option CacheState) (decode deterministic : Bool)
    (dropout_rate : ℚ) (rng_key : ℕ) : Except String CallResult :=
  Except.map
    (fun c =>
      { output_shape := q_shape, cache := c,
        dropout_rng :=
          dropout_rng_select deterministic dropout_rate make_rng rng_key })
    (attention_call_cache num_heads head_dim q_shape key_step value_step st
      decode)

lemma attention_call_rng (num_heads head_dim : ℕ) (make_rng : ℕ → ℕ)
    (q_shape : ℕ × ℕ × ℕ) (key_step value_step : Tok)
    (st : Option CacheState) (decode deterministic : Bool)
    (dropout_rate : ℚ) (rng_key : ℕ) (r : CallResult)
    (hok : attention_call num_heads head_dim make_rng q_shape key_step
        value_step st decode deterministic dropout_rate rng_key =
      Except.ok r) :
    r.dropout_rng =
      dropout_rng_select deterministic dropout_rate make_rng rng_key := by
  unfold attention_call at hok
  revert hok
  cases attention_call_cache num_heads head_dim q_shape key_step value_step
      st decode with
  | error e => intro hok; simp [Except.map] at hok
  | ok c =>
    intro hok
    simp [Except.map] at hok
    rw [← hok]

/-- C8: a priming call (decode false) returns the query input shape as the
output shape and passes the cache state through untouched: all cache reads
and writes sit under the decode branch. -/
theorem c8_priming_frame (num_heads head_dim : ℕ) (make_rng : ℕ → ℕ)
    (q_shape : ℕ × ℕ × ℕ) (key_step value_step : Tok)
    (st : Option CacheState) (deterministic : Bool) (dropout_rate : ℚ)
    (rng_key : ℕ) :
    attention_call num_heads head_dim make_rng q_shape key_step value_step st
        false deterministic dropout_rate rng_key =
      Except.ok
        { output_shape := q_shape, cache := st,
          dropout_rng :=
            dropout_rng_select deterministic dropout_rate make_rng rng_key } :=
  rfl

/-- C9: two attention calls with identical explicit inputs, identical cache
state and identical rng key produce identical results, and the dropout rng of
a successful call is drawn from the keyed source exactly when deterministic
is false and the dropout rate is positive; the embedded call is a pure
function of its listed arguments, so no other source of nondeterminism
exists. -/
theorem c9_determinism (num_heads head_dim : ℕ) (make_rng : ℕ → ℕ)
    (q_shape : ℕ × ℕ × ℕ) (key_step value_step key_step2 value_step2 : Tok)
    (st st2 : Option CacheState) (decode deterministic : Bool)
    (dropout_rate : ℚ) (rng_key rng_key2 : ℕ) (r : CallResult)
    (hk : key_step = key_step2) (hv : value_step = value_step2)
    (hst : st = st2) (hr : rng_key = rng_key2)
    (hok : attention_call num_heads head_dim make_rng q_shape key_step
        value_step st decode deterministic dropout_rate rng_key =
      Except.ok r) :
    attention_call num_heads head_dim make_rng q_shape key_step2 value_step2
        st2 decode deterministic dropout_rate rng_key2 = Except.ok r ∧
    (r.dropout_rng = some (make_rng rng_key) ↔
      deterministic = false ∧ 0 < dropout_rate) := by
  subst hk
  subst hv
  subst hst
  subst hr
  refine ⟨hok, ?_⟩
  have hrng := attention_call_rng num_heads head_dim make_rng q_shape
    key_step value_step st decode deterministic dropout_rate rng_key r hok
  rw [hrng, dropout_rng_select]
  by_cases hc : deterministic = false ∧ 0 < dropout_rate
  · simp [hc]
  · simp [hc]

/-- C9 witness: a concrete non-deterministic priming call with dropout rate
one and key 5 under the successor keyed source consumes rng 6. -/
theorem c9_determinism_witness :
    attention_call 1 2 Nat.succ (1, 1, 4) zeroTok zeroTok none false false 1
        5 =
      Except.ok ⟨(1, 1, 4), none, some 6⟩ ∧
    ((⟨(1, 1, 4), none, some 6⟩ : CallResult).dropout_rng =
        some (Nat.succ 5) ↔
      false = false ∧ (0 : ℚ) < 1) :=
  c9_determinism 1 2 Nat.succ (1, 1, 4) zeroTok zeroTok zeroTok zeroTok none
    none false false 1 5 5 ⟨(1, 1, 4), none, some 6⟩ rfl rfl rfl rfl rfl

end MaxText
